import Mathlib

/-!
Verification of `scripts/ai-reviewer.py`.

The script is a linear orchestrator: it reads two secrets from the
environment, parses a GitHub event payload, walks the working tree for a
task-description markdown file, fetches the commits of a pull request,
fetches each commit's changed files, filters them, builds a mentoring
prompt, calls a generative model per commit, and posts one aggregated
comment.

This file gives a shallow embedding: pure Python helpers become Lean
functions over `String`/`List`; the network operations become oracles in
an `Env` record; `main` becomes a pure function from `Env` to a `RunTrace`
recording every network call, the accumulated feedback, the posted
comment body, and any uncaught Python exception.
-/

set_option autoImplicit false

namespace AiReviewer

/-! ## File filter (`SUPPORTED_EXTENSIONS`, `IGNORE_DIRS`, `should_ignore_file`) -/

/-- The Python set `SUPPORTED_EXTENSIONS`, as a list of its elements. -/
def SUPPORTED_EXTENSIONS : List String :=
  [".js", ".jsx", ".ts", ".tsx", ".mjs", ".cjs",
   ".vue", ".svelte", ".astro",
   ".css", ".scss", ".sass", ".less", ".styl",
   ".html", ".htm", ".pug", ".ejs", ".handlebars", ".hbs",
   ".json", ".go", ".java", ".cpp", ".c", ".md"]

/-- The Python set `IGNORE_DIRS`, as a list of its elements. -/
def IGNORE_DIRS : List String :=
  [".git", ".github", ".vscode", ".idea",
   "node_modules", "bower_components",
   "dist", "build", "out", "coverage",
   "__pycache__", "venv", "bin", "obj",
   ".next", ".nuxt", ".astro"]

/-- Substring test on character lists: `needle` occurs contiguously in the
scanned list. -/
def isSubstr (needle : List Char) : List Char → Bool
  | [] => needle.isEmpty
  | c :: rest => needle.isPrefixOf (c :: rest) || isSubstr needle rest

/-- Python `needle in hay` on strings: substring containment. -/
def pyIn (needle hay : String) : Bool :=
  isSubstr needle.data hay.data

/-- Python `s.startswith(pre)`. -/
def pyStartswith (s pre : String) : Bool :=
  pre.data.isPrefixOf s.data

/-- Python `str.rfind` restricted to a single character: the index of the
last occurrence, `-1` when absent. -/
def rfindChar (l : List Char) (c : Char) : Int :=
  match l.reverse.findIdx? (· == c) with
  | none => -1
  | some i => (l.length : Int) - 1 - (i : Int)

/-- CPython `posixpath.splitext`: split the last dot of the basename off as
the extension, unless every character of the basename before that dot is
itself a dot (so dotfiles such as `.bashrc` have no extension). -/
def splitext (p : String) : String × String :=
  let l := p.data
  let sepIndex := rfindChar l '/'
  let dotIndex := rfindChar l '.'
  if sepIndex < dotIndex then
    let stem := (l.drop (sepIndex + 1).toNat).take (dotIndex - sepIndex - 1).toNat
    if stem.any (fun ch => !(ch == '.')) then
      (String.mk (l.take dotIndex.toNat), String.mk (l.drop dotIndex.toNat))
    else (p, "")
  else (p, "")

/-- `should_ignore_file` from the script: true when some ignored directory
occurs as `/{dir}/` inside the path or `{dir}/` as a prefix, and otherwise
when the `splitext` extension is not in `SUPPORTED_EXTENSIONS`. -/
def should_ignore_file (file_path : String) : Bool :=
  IGNORE_DIRS.any
    (fun d => pyIn ("/" ++ d ++ "/") file_path || pyStartswith file_path (d ++ "/"))
  || !(SUPPORTED_EXTENSIONS.contains (splitext file_path).2)

/-! ## Context loader: the `os.walk` scan for a task-description file -/

/-- A file in the modelled working tree.  `content = none` means that
opening/reading the file raises an exception. -/
structure FSFile where
  name : String
  content : Option String
  deriving DecidableEq

/-- A directory in the modelled working tree: its name, its plain files in
listing order, and its subdirectories in listing order. -/
inductive FSDir where
  | mk (name : String) (files : List FSFile) (subdirs : List FSDir)

def FSDir.name : FSDir → String
  | .mk n _ _ => n

def FSDir.files : FSDir → List FSFile
  | .mk _ fs _ => fs

def FSDir.subdirs : FSDir → List FSDir
  | .mk _ _ ds => ds

/-- The fixed candidate names `['readme.md', 'task.md', 'exercise.md',
'assignment.md']` from the script. -/
def taskFileNames : List String :=
  ["readme.md", "task.md", "exercise.md", "assignment.md"]

/-- Python `str.lower()`, characterwise (the compared names are ASCII). -/
def pyLower (s : String) : String :=
  String.mk (s.data.map Char.toLower)

/-- `file.lower() in [...]`: case-insensitive membership against
`taskFileNames`. -/
def isTaskName (s : String) : Bool :=
  taskFileNames.contains (pyLower s)

mutual
/-- `os.walk` from a root, top-down, with the in-place pruning
`dirs[:] = [d for d in dirs if d not in IGNORE_DIRS]`: the root directory
itself is always yielded, a pruned subdirectory contributes nothing.  Each
yielded element is one directory file listing, in walk order. -/
def walkDir : FSDir → List (List FSFile)
  | .mk _ fs sub => fs :: walkChildren sub

/-- Walk of the (already listed) subdirectories, applying the pruning
check to each before descending. -/
def walkChildren : List FSDir → List (List FSFile)
  | [] => []
  | d :: ds =>
    (if IGNORE_DIRS.contains d.name then [] else walkDir d) ++ walkChildren ds
end

/-- The inner `for file in files` loop of section 3 of `main`: scan one
directory listing; on the first name match try the read — success (of any
content, empty included) sets `exercise_content` and breaks out of the file
loop, a raising read is logged and the scan continues with the next file. -/
def scanDirFiles : List FSFile → Option String
  | [] => none
  | f :: rest =>
    if isTaskName f.name then
      match f.content with
      | some s => some s
      | none => scanDirFiles rest
    else scanDirFiles rest

/-- The outer `for root, dirs, files in os.walk(".")` loop: after each
directory, `if exercise_content: break`; an empty (falsy) result keeps the
walk going, so a later directory may overwrite it. -/
def contextLoad : List (List FSFile) → String
  | [] => ""
  | d :: rest =>
    match scanDirFiles d with
    | some s => if s == "" then contextLoad rest else s
    | none => contextLoad rest

/-- Section 3 of `main` as a whole: the final value of `exercise_content`
for a given working tree. -/
def contextLoader (t : FSDir) : String :=
  contextLoad (walkDir t)

/-! ## Data model for the GitHub API responses -/

/-- A well-formed entry of `commit_data['files']`: path, status, and the
optional `patch` field (absent for binary files).  The claims quantify
over these; the raw, possibly raising API value is `FileEntry`. -/
structure FileInfo where
  filename : String
  status : String
  patch : Option String
  deriving DecidableEq

/-- A well-formed entry of the commit list: `commit['sha']` and
`commit['commit']['message']`.  The raw API value is `CommitEntry`. -/
structure CommitInfo where
  sha : String
  message : String
  deriving DecidableEq

/-- A raw changed-file object as the script actually consumes it: the
subscript reads `file_info['filename']` and `file_info['status']` are duck
typed and can raise (`.error msg` = KeyError/TypeError), while
`file_info.get('patch', '')` never raises. -/
structure FileEntry where
  filename : Except String String
  status : Except String String
  patch : Option String

/-- The raw file object of a well-formed entry: every field read
succeeds. -/
def FileEntry.ofInfo (fi : FileInfo) : FileEntry :=
  ⟨.ok fi.filename, .ok fi.status, fi.patch⟩

/-- A raw commit object: `commit['sha']` and `commit['commit']['message']`
are read outside any try block and can raise. -/
structure CommitEntry where
  sha : Except String String
  message : Except String String

/-- The raw commit object of a well-formed entry. -/
def CommitEntry.ofInfo (c : CommitInfo) : CommitEntry :=
  ⟨.ok c.sha, .ok c.message⟩

/-! ## Prompt builder: the literal template strings of the script -/

def LEARNING_RESOURCES : String :=
  "\n**HTML & Semantic Markup:**\n- MDN HTML Basics: https://developer.mozilla.org/en-US/docs/Learn/HTML\n- Web.dev Learn HTML: https://web.dev/learn/html\n\n**CSS & Styling:**\n- CSS-Tricks Complete Guide: https://css-tricks.com/guides/\n- MDN CSS Layout: https://developer.mozilla.org/en-US/docs/Learn/CSS/CSS_layout\n- Flexbox Froggy (Game): https://flexboxfroggy.com/\n- Grid Garden (Game): https://cssgridgarden.com/\n\n**JavaScript Basics:**\n- JavaScript.info (ქართულად): https://javascript.info/\n- MDN JavaScript Guide: https://developer.mozilla.org/en-US/docs/Web/JavaScript/Guide\n- Eloquent JavaScript (Free Book): https://eloquentjavascript.net/\n\n**Forms & Validation:**\n- MDN Forms Guide: https://developer.mozilla.org/en-US/docs/Learn/Forms\n- Web.dev Sign-in Form Best Practices: https://web.dev/sign-in-form-best-practices/\n\n**Accessibility:**\n- Web.dev Learn Accessibility: https://web.dev/learn/accessibility\n- A11y Project Checklist: https://www.a11yproject.com/checklist/\n\n**General Best Practices:**\n- Web.dev Learn: https://web.dev/learn\n- Frontend Checklist: https://frontendchecklist.io/\n"

def promptFallback : String :=
  "დავალების აღწერა არ მოიძებნა. გააანალიზე კოდი ზოგადი best practices-ის მიხედვით."

def promptPart1 : String :=
  "\n# შენი როლი და კონტექსტი\nშენ ხარ გამოცდილი ფრონტენდ-დეველოპერი მენტორი, რომელიც მუშაობს **დამწყებ ფრონტენდ სტუდენტებთან**. \nშენი ძირითადი მიზანია: არა მხოლოდ შეცდომების მითითება, არამედ სწავლის პროცესის გაადვილება და მოტივაციის გაზრდა.\n\n# დავალების კონტექსტი\n"

def promptPart2 : String :=
  "\n\n# ამ კომიტში შეტანილი ცვლილებები\n"

def promptPart3a : String :=
  "\n\n# შენი ამოცანები (ზუსტად ამ თანმიმდევრობით)\n\n## ნაბიჯი 1: გააანალიზე სტუდენტის დონე\n- შეაფასე კოდის სირთულე და სტილი\n- განსაზღვრე სტუდენტის სავარაუდო ცოდნის დონე (absolute beginner / beginner / intermediate beginner)\n- მოერგე ენობრივ სირთულეს მის დონეს\n- დამწყები = მარტივი ენა, მეტი ახსნა; გამოცდილი = უფრო ტექნიკური\n\n## ნაბიჯი 2: იდენტიფიცირე კლიდები\n- რა სწავლობს სტუდენტი ამ კომიტში? (HTML structure? CSS styling? JavaScript basics? Forms?)\n- რა კონცეფციები ან ტექნოლოგიები გამოიყენა?\n- რა არის მისი ძლიერი მხარე? რას სჭირდება გაუმჯობესება?\n\n## ნაბიჯი 3: გასცი feedback (მოკლედ და კონკრეტულად)\n\n**მნიშვნელოვანი წესები:**\n- **იყავი ლაკონური**: მაქსიმუმ 5 წინადადება\n- **ფოკუსირება**: მხოლოდ ამ კომიტის ცვლილებებზე\n- **დაიწყე პოზიტიურით**: ყოველთვის ამოიწურე რაღაც კარგი (ეს ამაღლებს მოტივაციას)\n- **კონკრეტული**: თუ რაიმე უნდა შეიცვალოს, მიუთითე ზუსტი კოდის ხაზი და როგორ\n- **ახსნა რატომ**: არ დაწერო მხოლოდ \"ეს ცუდია\", ახსენი რა პრობლემას იწვევს\n- **დამწყებისთვის**: თავიდან აიცილე ძალიან ტექნიკური ტერმინები ან დაამატე მარტივი განმარტება\n\n## ნაბიჯი 4: რესურსების რეკომენდაცია\nიდენტიფიცირებული დონისა და კონცეფციების საფუძველზე:\n- შესთავაზე **1-2 კონკრეტული რესურსი** (MDN docs, web.dev, CSS-Tricks, JavaScript.info)\n- რესურსი უნდა იყოს **პირდაპირ დაკავშირებული** იმ თემასთან, რაზეც სტუდენტი მუშაობს\n- ენა: ქართულენოვანი რესურსები (თუ არსებობს), თორემ ინგლისური\n\n# გამოსატანი ფორმატი (მკაცრად დაიცავი)\n\n✅ **რა მუშაობს კარგად**\n[1 წინადადება - აუცილებლად იპოვე რაღაც პოზიტიური, თუნდაც პატარა]\n\n💡 **რჩევები**\n• [კონკრეტული რჩევა 1 - მიუთითე ფაილი და რა უნდა შეიცვალოს]\n• [კონკრეტული რჩევა 2 - ახსენი რატომ]\n[არაუმეტეს 3 პუნქტისა]\n\n📚 **რესურსი შემდეგი ნაბიჯისთვის**\n[1-2 კონკრეტული ლინკი ან რეკომენდაცია, რომელიც დაეხმარება ზუსტად იმ კონცეფციის გაღრმავებაში, რაზეც მუშაობს]\n\n# ხელმისაწვდომი რესურსების ბაზა\n"

def promptPart3b : String :=
  "\n\n---\n\n# მაგალითი იდეალური პასუხისა\n\n✅ **რა მუშაობს კარგად**\nკარგად გამოიყენე semantic HTML-ის `<form>` და `<label>` ტეგები - ეს აუმჯობესებს accessibility-ს.\n\n💡 **რჩევები**\n• `index.html`-ში, ხაზი 15: `<button>` ელემენტს დაამატე `type=\"submit\"` (default იქნება submit, მაგრამ ნათლად მიუთითე)\n• `styles.css`-ში კლასის სახელები გახადე აღწერითი: `.btn-1` → `.submit-button` (6 თვის შემდეგ დაგავიწყდება რას ნიშნავს btn-1)\n\n📚 **რესურსი შემდეგი ნაბიჯისთვის**\n• MDN - HTML Forms Guide: https://developer.mozilla.org/en-US/docs/Learn/Forms\n• ან ქართულად: https://javascript.info/forms-controls (თარგმნილია ქართულად)\n\n---\n\n**დაიწყე რევიუ:**\n"

/-- The f-string `prompt = f"""..."""` of section 6 of `main`: the fixed
template with its three substitution points (task context with its falsy
fallback, the changed-files section, and the static resource catalog). -/
def buildPrompt (exercise_content changed_content : String) : String :=
  promptPart1
    ++ (if exercise_content == "" then promptFallback else exercise_content)
    ++ promptPart2 ++ changed_content ++ promptPart3a
    ++ LEARNING_RESOURCES ++ promptPart3b

/-- The three `changed_content +=` lines for one included file. -/
def renderEntry (fi : FileInfo) : String :=
  "\n--- FILE: " ++ fi.filename ++ " ---\n"
    ++ "Status: " ++ fi.status ++ "\n"
    ++ "Changes:\n" ++ fi.patch.getD "" ++ "\n"

/-- The body of the `for file_info in files` loop of section 5 of `main`,
over a raw entry: the `['filename']` read happens first and can raise;
then skip the file when `should_ignore_file` holds or the patch (defaulted
to `""`) is falsy; the `['status']` read happens only for an included file
and can raise; otherwise append the three lines and increment
`file_count`. -/
def buildChangedStepE (acc : String × Nat) (fi : FileEntry) :
    Except String (String × Nat) :=
  match fi.filename with
  | .error e => .error e
  | .ok file_path =>
    if should_ignore_file file_path then .ok acc
    else if !((fi.patch.getD "") == "") then
      match fi.status with
      | .error e => .error e
      | .ok st => .ok (acc.1 ++ renderEntry ⟨file_path, st, fi.patch⟩, acc.2 + 1)
    else .ok acc

/-- The `for file_info in files` loop of section 5 of `main`: accumulate
`changed_content` and `file_count` over the commit detail's file list,
aborting at the first raising field read (the read is outside any try, so
the exception escapes `main`). -/
def buildChangedE : List FileEntry → String × Nat → Except String (String × Nat)
  | [], acc => .ok acc
  | fi :: rest, acc =>
    match buildChangedStepE acc fi with
    | .error e => .error e
    | .ok acc2 => buildChangedE rest acc2

/-- The loop body specialized to a well-formed entry (every field read
succeeds): the computation the claims quantify over. -/
def buildChangedStep (acc : String × Nat) (fi : FileInfo) : String × Nat :=
  if should_ignore_file fi.filename then acc
  else if !((fi.patch.getD "") == "") then (acc.1 ++ renderEntry fi, acc.2 + 1)
  else acc

/-- The loop of section 5 over well-formed entries. -/
def buildChanged (files : List FileInfo) : String × Nat :=
  files.foldl buildChangedStep ("", 0)

/-! ## Feedback formatting and the aggregated comment -/

/-- Python `str.strip()` on the model response text. -/
def pyStrip (s : String) : String :=
  s.trim

/-- `formatted_feedback = f"**[\x60{short_sha}\x60]** {commit_message}\n\n{feedback}"`. -/
def formatFeedback (short_sha commit_message feedback : String) : String :=
  "**[`" ++ short_sha ++ "`]** " ++ commit_message ++ "\n\n" ++ feedback

def commentHeader : String :=
  "🎓 **AI Mentor Review** - თითოეული კომიტის დეტალური განხილვა\n\n"

def commentFooter : String :=
  "\n\n---\n\n💡 *ეს feedback გენერირებულია AI-ის მიერ. თუ რაიმე გაურკვეველია, ჰკითხე მენტორს!*"

def postBodyOf (body : String) : String :=
  "### 🎓 კომიტების მიმოხილვა (AI Mentor)\n\n" ++ body

/-- Section 8 of `main`: join the collected feedback with the separator and
wrap with the fixed header and footer. -/
def combineFeedback (all_feedback : List String) : String :=
  commentHeader ++ String.intercalate "\n\n---\n\n" all_feedback ++ commentFooter

/-! ## The orchestrator `main` over an environment of oracles -/

/-- The parsed event payload: whether the `'pull_request'` key is present
(the `if 'pull_request' in event_data` check), and if so the outcome of
the `['number']` read on its value — `.error msg` when that read raises
(key absent, or the value is not a mapping), `.ok n` otherwise.  The read
is outside any try, so its exception escapes `main`. -/
structure Payload where
  pull_request : Option (Except String Int)

/-- The environment `main` runs against.  `readEvent` models opening and
JSON-parsing the payload file (`.error` = the raised `IOError` or
`JSONDecodeError`); `listCommits`, `commitDetail` and `aiGen` are the
network oracles (`.error` = the call raised), answering with raw entries
whose field reads may themselves raise; `postResult` is the final
`requests.post` (`.error` = the request raised — it has no try around it —
`.ok code` = the HTTP status, fatal to nothing); `fs` is the working
tree. -/
structure Env where
  gemini_key : Option String
  github_token : Option String
  event_path : Option String
  readEvent : String → Except String Payload
  fs : FSDir
  listCommits : Except String (List CommitEntry)
  commitDetail : String → Except String (List FileEntry)
  aiGen : String → Except String String
  postResult : String → Except String Nat

/-- What one run did: how many list-commit calls, which commit-detail
calls (shas, in order), which AI calls (prompts, in order), the final
`all_feedback`, the posted comment body if any, and the uncaught exception
if one escaped `main`. -/
structure RunTrace where
  listCalls : Nat
  detailCalls : List String
  aiCalls : List String
  feedback : List String
  posted : Option String
  raised : Option String
  deriving DecidableEq

def emptyTrace : RunTrace :=
  ⟨0, [], [], [], none, none⟩

/-- Python truthiness of `os.getenv`: `None` and `""` are falsy. -/
def truthy : Option String → Bool
  | none => false
  | some s => !(s == "")

/-- What one iteration of the per-commit loop did: the detail call if one
was issued, the AI call if one was made, the feedback entry if one was
appended, and the uncaught exception if a field read raised. -/
structure StepResult where
  detailCalls : List String
  aiCall : Option String
  feedback : Option String
  raised : Option String
  deriving DecidableEq

/-- What the whole per-commit loop did, stopping at the first uncaught
exception. -/
structure LoopResult where
  detailCalls : List String
  aiCalls : List String
  feedback : List String
  raised : Option String
  deriving DecidableEq

/-- One iteration of the `for commit in commits` loop.  `commit['sha']`
and `commit['commit']['message']` are read first, outside any try, so a
raising read escapes before the detail call.  The detail fetch is inside
try/except (an error skips the commit); the file loop's field reads can
raise (uncaught); the AI call is inside try/except (an error skips the
commit's feedback). -/
def stepCommit (env : Env) (exercise_content : String) (e : CommitEntry) :
    StepResult :=
  match e.sha with
  | .error msg => ⟨[], none, none, some msg⟩
  | .ok commit_sha =>
    match e.message with
    | .error msg => ⟨[], none, none, some msg⟩
    | .ok commit_message =>
      match env.commitDetail commit_sha with
      | .error _ => ⟨[commit_sha], none, none, none⟩
      | .ok files =>
        match buildChangedE files ("", 0) with
        | .error msg => ⟨[commit_sha], none, none, some msg⟩
        | .ok bc =>
          if bc.2 == 0 then ⟨[commit_sha], none, none, none⟩
          else
            match env.aiGen (buildPrompt exercise_content bc.1) with
            | .error _ =>
              ⟨[commit_sha], some (buildPrompt exercise_content bc.1), none, none⟩
            | .ok txt =>
              ⟨[commit_sha], some (buildPrompt exercise_content bc.1),
                some (formatFeedback (commit_sha.take 7) commit_message (pyStrip txt)),
                none⟩

/-- The whole `for commit in commits` loop: detail calls, AI calls and
`all_feedback`, each in loop order; an uncaught exception in an iteration
ends the loop (and `main`) there. -/
def processCommits (env : Env) (exercise_content : String) :
    List CommitEntry → LoopResult
  | [] => ⟨[], [], [], none⟩
  | e :: rest =>
    let s := stepCommit env exercise_content e
    match s.raised with
    | some msg => ⟨s.detailCalls, s.aiCall.toList, s.feedback.toList, some msg⟩
    | none =>
      let r := processCommits env exercise_content rest
      ⟨s.detailCalls ++ r.detailCalls, s.aiCall.toList ++ r.aiCalls,
        s.feedback.toList ++ r.feedback, r.raised⟩

/-- `main` of the script, as a trace transformer.  Mirrors the source
order: secrets check, payload read (unprotected — a raising read escapes),
PR check with the unprotected `['number']` read, context load, commit-list
fetch (fatal on error, caught), the per-commit loop (whose unprotected
field reads can raise), the final empty-feedback check, and the comment
POST (whose network errors are uncaught; a bad status code is only
logged). -/
def main (env : Env) : RunTrace :=
  if !(truthy env.gemini_key) || !(truthy env.github_token) then emptyTrace
  else
    match env.event_path with
    | none => { emptyTrace with raised := some "TypeError" }
    | some p =>
      match env.readEvent p with
      | .error e => { emptyTrace with raised := some e }
      | .ok payload =>
        match payload.pull_request with
        | none => emptyTrace
        | some numberRead =>
          match numberRead with
          | .error e => { emptyTrace with raised := some e }
          | .ok _pr_number =>
            let exercise_content := contextLoader env.fs
            match env.listCommits with
            | .error _ => { emptyTrace with listCalls := 1 }
            | .ok commits =>
              let r := processCommits env exercise_content commits
              match r.raised with
              | some msg =>
                { listCalls := 1, detailCalls := r.detailCalls,
                  aiCalls := r.aiCalls, feedback := r.feedback,
                  posted := none, raised := some msg }
              | none =>
                if r.feedback.isEmpty then
                  { listCalls := 1, detailCalls := r.detailCalls,
                    aiCalls := r.aiCalls, feedback := r.feedback,
                    posted := none, raised := none }
                else
                  match env.postResult (postBodyOf (combineFeedback r.feedback)) with
                  | .error e =>
                    { listCalls := 1, detailCalls := r.detailCalls,
                      aiCalls := r.aiCalls, feedback := r.feedback,
                      posted := some (postBodyOf (combineFeedback r.feedback)),
                      raised := some e }
                  | .ok _code =>
                    { listCalls := 1, detailCalls := r.detailCalls,
                      aiCalls := r.aiCalls, feedback := r.feedback,
                      posted := some (postBodyOf (combineFeedback r.feedback)),
                      raised := none }

/-! ## Spec-side definitions (stated from the spec wording, for the
claims that compare the code against it) -/

/-- Spec wording of the File Filter: the file passes (is not ignored). -/
def passesFilter (fi : FileInfo) : Bool :=
  !(should_ignore_file fi.filename)

/-- Spec wording: the entry has nonempty patch text. -/
def hasPatch (fi : FileInfo) : Bool :=
  !((fi.patch.getD "") == "")

/-- Spec wording of C2: the files passing the File Filter minus those with
absent or empty patch text. -/
def includedFiles (files : List FileInfo) : List FileInfo :=
  files.filter (fun fi => passesFilter fi && hasPatch fi)

/-- Concatenation of a list of strings, in order. -/
def concatAll : List String → String
  | [] => ""
  | s :: rest => s ++ concatAll rest

/-- Spec wording of the per-directory scan (used to restate the context
loader): the first candidate in the listing that matches a task name and
reads successfully, if any, with its content. -/
def specScanDir (fs : List FSFile) : Option String :=
  (fs.find? (fun f => isTaskName f.name && f.content.isSome)).bind FSFile.content

/-- C8 exactly as the claim words it: the content of the first
case-insensitively matching file in traversal order, and the empty value
when there is no match or reading that file fails. -/
def specLoaderClaim (t : FSDir) : String :=
  match (walkDir t).flatten.find? (fun f => isTaskName f.name) with
  | none => ""
  | some f => f.content.getD ""

/-- Every successful detail response consists of well-formed file objects
(every field read succeeds) — what the typed GitHub API contract
promises.  The loop-shape claims assume it, as the source crashes
otherwise. -/
def wfDetail (env : Env) : Prop :=
  ∀ s files, env.commitDetail s = .ok files →
    ∃ fs : List FileInfo, files = fs.map FileEntry.ofInfo

/-- Spec-side enumeration of the configurations in which an exception
escapes `main` uncaught: both secrets present, and then either the
event-payload read raises (path variable unset, file unreadable, malformed
JSON), or the `['number']` read on the `pull_request` value raises, or a
commit/file field read inside the per-commit loop raises, or the final
comment POST raises. -/
def escapesAt (env : Env) : Prop :=
  truthy env.gemini_key = true ∧ truthy env.github_token = true ∧
    (env.event_path = none
      ∨ (∃ q e, env.event_path = some q ∧ env.readEvent q = .error e)
      ∨ (∃ q pay e, env.event_path = some q ∧ env.readEvent q = .ok pay
          ∧ pay.pull_request = some (.error e))
      ∨ (∃ q pay n commits, env.event_path = some q
          ∧ env.readEvent q = .ok pay ∧ pay.pull_request = some (.ok n)
          ∧ env.listCommits = .ok commits
          ∧ (processCommits env (contextLoader env.fs) commits).raised ≠ none)
      ∨ (∃ q pay n commits e, env.event_path = some q
          ∧ env.readEvent q = .ok pay ∧ pay.pull_request = some (.ok n)
          ∧ env.listCommits = .ok commits
          ∧ (processCommits env (contextLoader env.fs) commits).raised = none
          ∧ (processCommits env (contextLoader env.fs) commits).feedback ≠ []
          ∧ env.postResult (postBodyOf (combineFeedback
              (processCommits env (contextLoader env.fs) commits).feedback)) =
              .error e))

/-! ## Concrete witness environments -/

/-- An empty working tree. -/
def root0 : FSDir :=
  .mk "." [] []

/-- A tree whose first matching task file raises on read and whose second
one reads successfully. -/
def treeReadFail : FSDir :=
  .mk "." [⟨"README.md", none⟩, ⟨"task.md", some "hello"⟩] []

/-- A run with both secrets, a PR payload, two commits, every detail call
answering with one well-formed reviewable file, and the model answering
every prompt. -/
def envHappy : Env where
  gemini_key := some "k"
  github_token := some "t"
  event_path := some "/event.json"
  readEvent := fun _ => .ok ⟨some (.ok 7)⟩
  fs := root0
  listCommits := .ok (([⟨"abc1234567", "add form"⟩, ⟨"def7654321", "style"⟩] :
    List CommitInfo).map CommitEntry.ofInfo)
  commitDetail := fun _ =>
    .ok (([⟨"index.html", "modified", some "+<label>x</label>"⟩] :
      List FileInfo).map FileEntry.ofInfo)
  aiGen := fun _ => .ok " nice work "
  postResult := fun _ => .ok 201

/-- Same run but the AI call raises on every prompt. -/
def envAiFail : Env where
  gemini_key := some "k"
  github_token := some "t"
  event_path := some "/event.json"
  readEvent := fun _ => .ok ⟨some (.ok 7)⟩
  fs := root0
  listCommits := .ok (([⟨"abc1234567", "add form"⟩] :
    List CommitInfo).map CommitEntry.ofInfo)
  commitDetail := fun _ =>
    .ok (([⟨"index.html", "modified", some "+<label>x</label>"⟩] :
      List FileInfo).map FileEntry.ofInfo)
  aiGen := fun _ => .error "quota"
  postResult := fun _ => .ok 201

/-- Same run but every detail call answers with a single file in a
denylisted directory, so nothing survives the filter. -/
def envSkip : Env where
  gemini_key := some "k"
  github_token := some "t"
  event_path := some "/event.json"
  readEvent := fun _ => .ok ⟨some (.ok 7)⟩
  fs := root0
  listCommits := .ok (([⟨"abc1234567", "add form"⟩] :
    List CommitInfo).map CommitEntry.ofInfo)
  commitDetail := fun _ =>
    .ok (([⟨"dist/bundle.js", "added", some "+x"⟩] :
      List FileInfo).map FileEntry.ofInfo)
  aiGen := fun _ => .ok "fine"
  postResult := fun _ => .ok 201

/-- A run with the AI API key unset. -/
def envNoKey : Env where
  gemini_key := none
  github_token := some "t"
  event_path := some "/event.json"
  readEvent := fun _ => .ok ⟨some (.ok 7)⟩
  fs := root0
  listCommits := .ok (([⟨"abc1234567", "add form"⟩] :
    List CommitInfo).map CommitEntry.ofInfo)
  commitDetail := fun _ =>
    .ok (([⟨"index.html", "modified", some "+x"⟩] :
      List FileInfo).map FileEntry.ofInfo)
  aiGen := fun _ => .ok "fine"
  postResult := fun _ => .ok 201

/-- A run with both secrets present but `GITHUB_EVENT_PATH` unset. -/
def envNoPath : Env where
  gemini_key := some "k"
  github_token := some "t"
  event_path := none
  readEvent := fun _ => .ok ⟨some (.ok 7)⟩
  fs := root0
  listCommits := .ok []
  commitDetail := fun _ => .error "x"
  aiGen := fun _ => .error "x"
  postResult := fun _ => .error "x"

/-! ## Helper lemmas -/

theorem isSubstr_iff (needle hay : List Char) :
    isSubstr needle hay = true ↔ needle <:+: hay := by
  induction hay with
  | nil =>
    simp [isSubstr, List.isEmpty_iff, List.infix_nil]
  | cons c rest ih =>
    simp [isSubstr, ih, List.isPrefixOf_iff_prefix, List.infix_cons_iff]

theorem concatAll_append (l₁ l₂ : List String) :
    concatAll (l₁ ++ l₂) = concatAll l₁ ++ concatAll l₂ := by
  induction l₁ with
  | nil => simp [concatAll]
  | cons s rest ih => simp [concatAll, ih, String.append_assoc]

theorem buildChanged_foldl (files : List FileInfo) (s : String) (n : Nat) :
    files.foldl buildChangedStep (s, n) =
      (s ++ concatAll ((includedFiles files).map renderEntry),
        n + (includedFiles files).length) := by
  induction files generalizing s n with
  | nil => simp [includedFiles, concatAll, String.append_empty]
  | cons fi rest ih =>
    by_cases h1 : should_ignore_file fi.filename
    · simp [buildChangedStep, h1, includedFiles, passesFilter, List.filter_cons, ih]
    · by_cases h2 : (fi.patch.getD "") == ""
      · simp [buildChangedStep, h1, h2, includedFiles, passesFilter, hasPatch,
          List.filter_cons, ih]
      · have hstep : buildChangedStep (s, n) fi = (s ++ renderEntry fi, n + 1) := by
          simp [buildChangedStep, h1, h2]
        have hfil : includedFiles (fi :: rest) = fi :: includedFiles rest := by
          simp [includedFiles, passesFilter, hasPatch, List.filter_cons, h1, h2]
        rw [List.foldl_cons, hstep, ih, hfil]
        simp only [List.map_cons, List.length_cons, concatAll, Prod.mk.injEq]
        exact ⟨by rw [String.append_assoc], by omega⟩

/-- The loop of section 5 computes the concatenation, in API order, of the
rendered entries of exactly the files that pass the filter and have
nonempty patch text, and counts them. -/
theorem buildChanged_eq (files : List FileInfo) :
    buildChanged files =
      (concatAll ((includedFiles files).map renderEntry),
        (includedFiles files).length) := by
  have h := buildChanged_foldl files "" 0
  simpa [buildChanged] using h

theorem includedFiles_eq_nil_of_filter_nil (files : List FileInfo)
    (hf : files.filter passesFilter = []) : includedFiles files = [] := by
  rw [List.eq_nil_iff_forall_not_mem] at hf ⊢
  intro fi hfi
  rw [includedFiles, List.mem_filter] at hfi
  exact hf fi (List.mem_filter.mpr ⟨hfi.1, by
    have := hfi.2
    simp only [Bool.and_eq_true] at this
    exact this.1⟩)

theorem buildChangedStepE_ofInfo (acc : String × Nat) (fi : FileInfo) :
    buildChangedStepE acc (FileEntry.ofInfo fi) = .ok (buildChangedStep acc fi) := by
  unfold buildChangedStepE buildChangedStep FileEntry.ofInfo
  by_cases h1 : should_ignore_file fi.filename <;>
    by_cases h2 : (fi.patch.getD "") == "" <;> simp [h1, h2]

theorem buildChangedE_ofInfo (files : List FileInfo) (acc : String × Nat) :
    buildChangedE (files.map FileEntry.ofInfo) acc =
      .ok (files.foldl buildChangedStep acc) := by
  induction files generalizing acc with
  | nil => rfl
  | cons fi rest ih => simp [buildChangedE, buildChangedStepE_ofInfo, ih]

theorem stepCommit_ofInfo_err (env : Env) (ctx : String) (c : CommitInfo)
    (e : String) (hd : env.commitDetail c.sha = .error e) :
    stepCommit env ctx (CommitEntry.ofInfo c) = ⟨[c.sha], none, none, none⟩ := by
  unfold stepCommit CommitEntry.ofInfo
  simp [hd]

theorem stepCommit_ofInfo_ok (env : Env) (ctx : String) (c : CommitInfo)
    (fs : List FileInfo)
    (hd : env.commitDetail c.sha = .ok (fs.map FileEntry.ofInfo)) :
    stepCommit env ctx (CommitEntry.ofInfo c) =
      (if (buildChanged fs).2 == 0 then ⟨[c.sha], none, none, none⟩
       else
         match env.aiGen (buildPrompt ctx (buildChanged fs).1) with
         | .error _ =>
           ⟨[c.sha], some (buildPrompt ctx (buildChanged fs).1), none, none⟩
         | .ok txt =>
           ⟨[c.sha], some (buildPrompt ctx (buildChanged fs).1),
             some (formatFeedback (c.sha.take 7) c.message (pyStrip txt)),
             none⟩) := by
  unfold stepCommit CommitEntry.ofInfo
  simp only [hd, buildChangedE_ofInfo, buildChanged]

theorem stepCommit_ofInfo_fields (env : Env) (ctx : String) (c : CommitInfo)
    (h7 : wfDetail env) :
    (stepCommit env ctx (CommitEntry.ofInfo c)).detailCalls = [c.sha]
      ∧ (stepCommit env ctx (CommitEntry.ofInfo c)).raised = none := by
  cases hd : env.commitDetail c.sha with
  | error e => rw [stepCommit_ofInfo_err env ctx c e hd]; exact ⟨rfl, rfl⟩
  | ok files =>
    obtain ⟨fs, rfl⟩ := h7 c.sha files hd
    rw [stepCommit_ofInfo_ok env ctx c fs hd]
    by_cases h : ((buildChanged fs).2 == 0) = true
    · simp [h]
    · cases hA : env.aiGen (buildPrompt ctx (buildChanged fs).1) <;> simp [h, hA]

theorem processCommits_ofInfo (env : Env) (ctx : String)
    (commits : List CommitInfo) (h7 : wfDetail env) :
    processCommits env ctx (commits.map CommitEntry.ofInfo) =
      ⟨commits.map CommitInfo.sha,
        commits.filterMap (fun c => (stepCommit env ctx (CommitEntry.ofInfo c)).aiCall),
        commits.filterMap (fun c => (stepCommit env ctx (CommitEntry.ofInfo c)).feedback),
        none⟩ := by
  induction commits with
  | nil => rfl
  | cons c rest ih =>
    obtain ⟨hdet, hrai⟩ := stepCommit_ofInfo_fields env ctx c h7
    simp only [List.map_cons, processCommits, hrai, ih, List.filterMap_cons]
    cases hA : (stepCommit env ctx (CommitEntry.ofInfo c)).aiCall <;>
      cases hF : (stepCommit env ctx (CommitEntry.ofInfo c)).feedback <;>
        simp [hdet, hA, hF]

theorem scanDirFiles_eq_spec (l : List FSFile) :
    scanDirFiles l = specScanDir l := by
  induction l with
  | nil => rfl
  | cons f rest ih =>
    by_cases h1 : isTaskName f.name
    · cases h2 : f.content with
      | none =>
        simp only [scanDirFiles, specScanDir, List.find?_cons, h1, h2]
        simpa [specScanDir, h1, h2] using ih
      | some s => simp [scanDirFiles, specScanDir, List.find?_cons, h1, h2]
    · simp only [scanDirFiles, specScanDir, List.find?_cons, h1]
      simpa [specScanDir, h1] using ih

theorem contextLoad_eq (l : List (List FSFile)) :
    contextLoad l =
      ((l.filterMap scanDirFiles).find? (fun s => !(s == ""))).getD "" := by
  induction l with
  | nil => rfl
  | cons d rest ih =>
    cases h : scanDirFiles d with
    | none => simp [contextLoad, h, List.filterMap_cons, ih]
    | some s =>
      by_cases hs : s == ""
      · have hs' : s = "" := by simpa using hs
        simp [contextLoad, h, List.filterMap_cons, List.find?_cons, hs', ih]
      · simp [contextLoad, h, List.filterMap_cons, List.find?_cons, hs, ih]

end AiReviewer

namespace AiReviewer

/-! ## Claim theorems -/

/-- C1: `should_ignore_file(P)` is true iff `P` contains a denylisted
directory name as a `/{dir}/` infix or `{dir}/` prefix over `IGNORE_DIRS`,
or `P`'s `splitext` extension (the empty string when absent) is not in
`SUPPORTED_EXTENSIONS`; being a plain function of the path string, the
result depends on nothing else. -/
theorem should_ignore_file_iff (p : String) :
    should_ignore_file p = true ↔
      ((∃ d ∈ IGNORE_DIRS,
          ("/" ++ d ++ "/").data <:+: p.data ∨ (d ++ "/").data <+: p.data)
        ∨ (splitext p).2 ∉ SUPPORTED_EXTENSIONS) := by
  simp [should_ignore_file, pyIn, pyStartswith, isSubstr_iff,
    List.isPrefixOf_iff_prefix, List.any_eq_true]

/-- C10: extension matching is case-sensitive — a path with no denylisted
directory segment whose extension is not itself allowlisted, even when its
lowercasing is (i.e. it differs from an allowlisted extension only in
letter case), is ignored. -/
theorem case_variant_ignored (p : String)
    (hdir : IGNORE_DIRS.any
        (fun d => pyIn ("/" ++ d ++ "/") p || pyStartswith p (d ++ "/")) = false)
    (hlower : SUPPORTED_EXTENSIONS.contains (pyLower (splitext p).2) = true)
    (hext : SUPPORTED_EXTENSIONS.contains (splitext p).2 = false) :
    should_ignore_file p = true := by
  simp [should_ignore_file, hdir]
  simpa using hext

theorem case_variant_ignored_witness :
    (IGNORE_DIRS.any (fun d =>
        pyIn ("/" ++ d ++ "/") "index.HTML"
          || pyStartswith "index.HTML" (d ++ "/")) = false)
      ∧ SUPPORTED_EXTENSIONS.contains (pyLower (splitext "index.HTML").2) = true
      ∧ SUPPORTED_EXTENSIONS.contains (splitext "index.HTML").2 = false
      ∧ should_ignore_file "index.HTML" = true :=
  ⟨by decide, by decide, by decide,
    case_variant_ignored "index.HTML" (by decide) (by decide) (by decide)⟩

/-- C2: when the detail call for commit `c` answers with well-formed
`files`, the AI call for `c` (when one happens) receives a prompt
embedding exactly the rendered header/status/patch entries of the files
that pass the File Filter minus those whose patch text is absent or empty,
in API order — and no AI call happens precisely when that set is empty, so
a file with an allowlisted extension but no patch text never appears in a
prompt. -/
theorem prompt_embeds_exactly_included (env : Env) (ctx : String)
    (c : CommitInfo) (files : List FileInfo)
    (hd : env.commitDetail c.sha = .ok (files.map FileEntry.ofInfo)) :
    (stepCommit env ctx (CommitEntry.ofInfo c)).aiCall =
      (if includedFiles files = [] then none
       else some (buildPrompt ctx
         (concatAll ((includedFiles files).map renderEntry)))) := by
  rw [stepCommit_ofInfo_ok env ctx c files hd]
  by_cases hinc : includedFiles files = []
  · simp [buildChanged_eq, hinc]
  · have hlen : (includedFiles files).length ≠ 0 := by
      simpa [List.length_eq_zero] using hinc
    cases hA : env.aiGen (buildPrompt ctx (buildChanged files).1) <;>
      simp_all [buildChanged_eq]

theorem prompt_embeds_exactly_included_witness :
    envHappy.commitDetail "abc1234567" =
        .ok (([⟨"index.html", "modified", some "+<label>x</label>"⟩] :
          List FileInfo).map FileEntry.ofInfo)
      ∧ (stepCommit envHappy ""
            (CommitEntry.ofInfo ⟨"abc1234567", "add form"⟩)).aiCall =
          (if includedFiles [⟨"index.html", "modified", some "+<label>x</label>"⟩] = []
           then none
           else some (buildPrompt ""
             (concatAll ((includedFiles
               [(⟨"index.html", "modified", some "+<label>x</label>"⟩ : FileInfo)]).map
                 renderEntry)))) :=
  ⟨rfl, prompt_embeds_exactly_included envHappy "" ⟨"abc1234567", "add form"⟩ _ rfl⟩

theorem main_loop_fields (env : Env) (p : String) (pay : Payload) (n : Int)
    (commits : List CommitInfo)
    (h1 : truthy env.gemini_key = true) (h2 : truthy env.github_token = true)
    (h3 : env.event_path = some p) (h4 : env.readEvent p = .ok pay)
    (h5 : pay.pull_request = some (.ok n))
    (h6 : env.listCommits = .ok (commits.map CommitEntry.ofInfo))
    (h7 : wfDetail env) :
    (main env).listCalls = 1
      ∧ (main env).detailCalls = commits.map CommitInfo.sha
      ∧ (main env).aiCalls = commits.filterMap
          (fun c => (stepCommit env (contextLoader env.fs) (CommitEntry.ofInfo c)).aiCall)
      ∧ (main env).feedback = commits.filterMap
          (fun c => (stepCommit env (contextLoader env.fs) (CommitEntry.ofInfo c)).feedback) := by
  unfold main
  simp only [h1, h2, h3, h4, h5, h6, Bool.not_true, Bool.or_self,
    Bool.false_eq_true, if_false,
    processCommits_ofInfo env (contextLoader env.fs) commits h7]
  split
  · exact ⟨rfl, rfl, rfl, rfl⟩
  · split <;> exact ⟨rfl, rfl, rfl, rfl⟩

/-- C3: past the fatal checks, with the commit list fetched successfully
and its entries (and every detail response) well-formed, the run issues
one detail call per commit in list order (so exactly `N`), and the final
feedback list is the in-order `filterMap` of the per-commit outcomes over
that same list — hence at most `N` entries whose relative order is the
commit order. -/
theorem commit_loop_shape (env : Env) (p : String) (pay : Payload) (n : Int)
    (commits : List CommitInfo)
    (h1 : truthy env.gemini_key = true) (h2 : truthy env.github_token = true)
    (h3 : env.event_path = some p) (h4 : env.readEvent p = .ok pay)
    (h5 : pay.pull_request = some (.ok n))
    (h6 : env.listCommits = .ok (commits.map CommitEntry.ofInfo))
    (h7 : wfDetail env) :
    (main env).detailCalls = commits.map CommitInfo.sha
      ∧ (main env).feedback = commits.filterMap
          (fun c => (stepCommit env (contextLoader env.fs) (CommitEntry.ofInfo c)).feedback)
      ∧ (main env).feedback.length ≤ commits.length := by
  obtain ⟨-, hdet, -, hfb⟩ :=
    main_loop_fields env p pay n commits h1 h2 h3 h4 h5 h6 h7
  exact ⟨hdet, hfb, by rw [hfb]; exact List.length_filterMap_le _ _⟩

theorem commit_loop_shape_witness :
    (main envHappy).detailCalls =
        ([⟨"abc1234567", "add form"⟩, ⟨"def7654321", "style"⟩] :
          List CommitInfo).map CommitInfo.sha
      ∧ (main envHappy).feedback =
          ([⟨"abc1234567", "add form"⟩, ⟨"def7654321", "style"⟩] :
            List CommitInfo).filterMap
            (fun c => (stepCommit envHappy (contextLoader envHappy.fs)
              (CommitEntry.ofInfo c)).feedback)
      ∧ (main envHappy).feedback.length ≤
          ([⟨"abc1234567", "add form"⟩, ⟨"def7654321", "style"⟩] :
            List CommitInfo).length :=
  commit_loop_shape envHappy "/event.json" ⟨some (.ok 7)⟩ 7 _
    rfl rfl rfl rfl rfl rfl
    (fun s files h => ⟨[⟨"index.html", "modified", some "+<label>x</label>"⟩],
      by injection h with h2; exact h2.symm⟩)

/-- C4: a commit whose changed-file list is empty after the File Filter
triggers no AI call (and yields no feedback), and the loop moves on to the
remaining commits unchanged. -/
theorem empty_after_filter_skips (env : Env) (ctx : String) (c : CommitInfo)
    (rest : List CommitEntry) (files : List FileInfo)
    (hd : env.commitDetail c.sha = .ok (files.map FileEntry.ofInfo))
    (hf : files.filter passesFilter = []) :
    (stepCommit env ctx (CommitEntry.ofInfo c)).aiCall = none
      ∧ (stepCommit env ctx (CommitEntry.ofInfo c)).feedback = none
      ∧ processCommits env ctx (CommitEntry.ofInfo c :: rest) =
          ⟨c.sha :: (processCommits env ctx rest).detailCalls,
            (processCommits env ctx rest).aiCalls,
            (processCommits env ctx rest).feedback,
            (processCommits env ctx rest).raised⟩ := by
  have hinc := includedFiles_eq_nil_of_filter_nil files hf
  have hstep : stepCommit env ctx (CommitEntry.ofInfo c) =
      ⟨[c.sha], none, none, none⟩ := by
    rw [stepCommit_ofInfo_ok env ctx c files hd]
    simp [buildChanged_eq, hinc]
  refine ⟨by rw [hstep], by rw [hstep], ?_⟩
  simp [processCommits, hstep]

theorem empty_after_filter_skips_witness :
    envSkip.commitDetail "abc1234567" =
        .ok (([⟨"dist/bundle.js", "added", some "+x"⟩] :
          List FileInfo).map FileEntry.ofInfo)
      ∧ ([(⟨"dist/bundle.js", "added", some "+x"⟩ : FileInfo)]).filter
          passesFilter = []
      ∧ (stepCommit envSkip ""
          (CommitEntry.ofInfo ⟨"abc1234567", "add form"⟩)).aiCall = none :=
  ⟨rfl, by decide,
    (empty_after_filter_skips envSkip "" ⟨"abc1234567", "add form"⟩ [] _
      rfl (by decide)).1⟩

/-- C5: when the AI call for commit `c` raises, no feedback entry for `c`
is appended, and the loop continues: the feedback produced by the rest of
the commit list is exactly what it would be without `c`. -/
theorem ai_error_skips_commit (env : Env) (ctx : String) (c : CommitInfo)
    (rest : List CommitEntry) (files : List FileInfo) (e : String)
    (hd : env.commitDetail c.sha = .ok (files.map FileEntry.ofInfo))
    (ha : env.aiGen (buildPrompt ctx (buildChanged files).1) = .error e) :
    (stepCommit env ctx (CommitEntry.ofInfo c)).feedback = none
      ∧ (processCommits env ctx (CommitEntry.ofInfo c :: rest)).feedback =
          (processCommits env ctx rest).feedback := by
  have hstep : (stepCommit env ctx (CommitEntry.ofInfo c)).feedback = none
      ∧ (stepCommit env ctx (CommitEntry.ofInfo c)).raised = none := by
    rw [stepCommit_ofInfo_ok env ctx c files hd]
    by_cases h : ((buildChanged files).2 == 0) = true
    · simp [h]
    · simp [h, ha]
  exact ⟨hstep.1, by simp [processCommits, hstep.1, hstep.2]⟩

theorem ai_error_skips_commit_witness :
    envAiFail.commitDetail "abc1234567" =
        .ok (([⟨"index.html", "modified", some "+<label>x</label>"⟩] :
          List FileInfo).map FileEntry.ofInfo)
      ∧ envAiFail.aiGen
          (buildPrompt ""
            (buildChanged
              [(⟨"index.html", "modified", some "+<label>x</label>"⟩ : FileInfo)]).1) =
          .error "quota"
      ∧ (stepCommit envAiFail ""
          (CommitEntry.ofInfo ⟨"abc1234567", "add form"⟩)).feedback = none :=
  ⟨rfl, rfl,
    (ai_error_skips_commit envAiFail "" ⟨"abc1234567", "add form"⟩ [] _ "quota"
      rfl rfl).1⟩

/-- C6: when the feedback accumulated by the per-commit loop is empty,
`main` never posts a comment and the run ends normally (early return, no
exception). -/
theorem no_feedback_no_post (env : Env) (p : String) (pay : Payload)
    (n : Int) (commits : List CommitInfo)
    (h1 : truthy env.gemini_key = true) (h2 : truthy env.github_token = true)
    (h3 : env.event_path = some p) (h4 : env.readEvent p = .ok pay)
    (h5 : pay.pull_request = some (.ok n))
    (h6 : env.listCommits = .ok (commits.map CommitEntry.ofInfo))
    (h7 : wfDetail env)
    (hfb : (main env).feedback = []) :
    (main env).posted = none ∧ (main env).raised = none := by
  obtain ⟨-, -, -, hfb'⟩ :=
    main_loop_fields env p pay n commits h1 h2 h3 h4 h5 h6 h7
  have hE : commits.filterMap
      (fun c => (stepCommit env (contextLoader env.fs)
        (CommitEntry.ofInfo c)).feedback) = [] :=
    hfb'.symm.trans hfb
  unfold main
  simp only [h1, h2, h3, h4, h5, h6, Bool.not_true, Bool.or_self,
    Bool.false_eq_true, if_false,
    processCommits_ofInfo env (contextLoader env.fs) commits h7]
  simp [hE]

theorem no_feedback_no_post_witness :
    (main envAiFail).feedback = [] ∧ (main envAiFail).posted = none :=
  ⟨by decide,
    (no_feedback_no_post envAiFail "/event.json" ⟨some (.ok 7)⟩ 7 _
      rfl rfl rfl rfl rfl rfl
      (fun s files h => ⟨[⟨"index.html", "modified", some "+<label>x</label>"⟩],
        by injection h with h2; exact h2.symm⟩)
      (by decide)).1⟩

/-- C7: an absent or empty AI API key or repository token halts the run
before any network activity: no commit-list call, no detail call, no AI
call, and nothing posted. -/
theorem missing_secret_halts (env : Env)
    (h : truthy env.gemini_key = false ∨ truthy env.github_token = false) :
    (main env).listCalls = 0 ∧ (main env).detailCalls = []
      ∧ (main env).aiCalls = [] ∧ (main env).posted = none := by
  have hmain : main env = emptyTrace := by
    unfold main
    rcases h with h | h <;> simp [h]
  simp [hmain, emptyTrace]

theorem missing_secret_halts_witness :
    truthy envNoKey.gemini_key = false
      ∧ (main envNoKey).listCalls = 0 ∧ (main envNoKey).detailCalls = []
      ∧ (main envNoKey).aiCalls = [] ∧ (main envNoKey).posted = none :=
  ⟨rfl, missing_secret_halts envNoKey (Or.inl rfl)⟩

/-- C8, counterexample: in `treeReadFail` the first matching file in
traversal order is `README.md` and reading it fails, so the claim says the
loader returns the empty value — but the code keeps scanning and returns
the content of the later `task.md`. -/
theorem loader_claim_counterexample :
    (walkDir treeReadFail).flatten.find? (fun f => isTaskName f.name) =
        some ⟨"README.md", none⟩
      ∧ specLoaderClaim treeReadFail = ""
      ∧ contextLoader treeReadFail = "hello" :=
  ⟨by decide, by decide, by decide⟩

/-- C8, amended: the loader returns the content of the first directory
scan that finds a successfully read matching candidate with nonempty
content — within a directory only candidates up to the first successful
read are tried — and the empty value when no scan yields nonempty content;
a read failure is skipped (treated as not found), never fatal. -/
theorem loader_returns_first_successful_nonempty (t : FSDir) :
    contextLoader t =
      (((walkDir t).filterMap specScanDir).find? (fun s => !(s == ""))).getD "" := by
  unfold contextLoader
  rw [contextLoad_eq]
  rw [funext scanDirFiles_eq_spec]

/-- C9, counterexample: with both secrets present but `GITHUB_EVENT_PATH`
unset, `main` does not end by an early normal return — the unprotected
payload `open` raises and the exception escapes `main`. -/
theorem payload_exception_counterexample :
    (main envNoPath).raised = some "TypeError"
      ∧ (main envNoPath).raised ≠ none :=
  ⟨by decide, by decide⟩

/-- C9, amended: the fatal conditions the code checks (missing secrets,
non-PR event, commit-list fetch failure) end the run by an early normal
return after a diagnostic — and an exception escapes `main` uncaught
exactly when both secrets are present and one of the unprotected
operations raises: the event-payload read (path variable unset, file
unreadable, malformed JSON), the `['number']` read on the `pull_request`
value, a commit or changed-file field read inside the per-commit loop, or
the final comment POST. -/
theorem uncaught_exception_characterization (env : Env) :
    (main env).raised ≠ none ↔ escapesAt env := by
  unfold escapesAt
  by_cases h1 : truthy env.gemini_key = true
  · by_cases h2 : truthy env.github_token = true
    · cases hp : env.event_path with
      | none => simp [main, h1, h2, hp]
      | some p =>
        cases hr : env.readEvent p with
        | error e => simp [main, h1, h2, hp, hr]
        | ok pay =>
          cases hq : pay.pull_request with
          | none => simp [main, h1, h2, hp, hr, hq, emptyTrace]
          | some numberRead =>
            cases numberRead with
            | error e => simp [main, h1, h2, hp, hr, hq]
            | ok n =>
              cases hl : env.listCommits with
              | error e2 => simp [main, h1, h2, hp, hr, hq, hl, emptyTrace]
              | ok commits =>
                cases hlr : (processCommits env (contextLoader env.fs) commits).raised with
                | some msg => simp [main, h1, h2, hp, hr, hq, hl, hlr]
                | none =>
                  by_cases hE :
                      (processCommits env (contextLoader env.fs) commits).feedback = []
                  · simp [main, h1, h2, hp, hr, hq, hl, hlr, hE, List.isEmpty_iff]
                  · cases hps : env.postResult (postBodyOf (combineFeedback
                        (processCommits env (contextLoader env.fs) commits).feedback)) with
                    | error e3 =>
                      simp [main, h1, h2, hp, hr, hq, hl, hlr, hE,
                        List.isEmpty_iff, hps]
                    | ok code =>
                      simp [main, h1, h2, hp, hr, hq, hl, hlr, hE,
                        List.isEmpty_iff, hps]
    · simp [main, h1, h2, emptyTrace]
  · simp [main, h1, emptyTrace]

end AiReviewer


section SanityChecks
open AiReviewer
example : splitext "index.HTML" = ("index", ".HTML") := by decide
example : splitext ".bashrc" = (".bashrc", "") := by decide
example : splitext "a/.html" = ("a/.html", "") := by decide
example : splitext "archive.tar.gz" = ("archive.tar", ".gz") := by decide
example : splitext "src/app.ts" = ("src/app", ".ts") := by decide
example : should_ignore_file "src/app.ts" = false := by decide
example : should_ignore_file "index.html" = false := by decide
example : should_ignore_file "dist/bundle.js" = true := by decide
example : should_ignore_file "a/dist/bundle.js" = true := by decide
example : should_ignore_file "Makefile" = true := by decide
end SanityChecks
